import Mathlib

/-!
Verification of the Talaria telemetry core against its specification.

This file shallowly embeds the Go source of the repository:
* `monitor/cache.go`        → `Talaria.CachedValue`
* `server/handler.go`       → `Talaria.collectAll`, `Talaria.hubTick`
* `server/websocket.go`     → queue-capacity model of `Client.send`
* `monitor/process.go`      → `Talaria.getProcessesPass`
* the storage reconciler    → `Talaria.updateBreakdown`
* `server/auth.go`          → `Talaria.checkRateLimit`, `Talaria.handleLogin`,
                              `Talaria.authMiddleware`

Time is modelled as a natural number of nanoseconds, Go `float64`
arithmetic as exact rational arithmetic (`ℚ`), Go maps as functions into
`Option`, and a fetch/provider that panics as an `Option`/`Except` outcome.
-/

namespace Talaria

/-! ## monitor/cache.go — `CachedValue[T]` -/

/-- State of a `CachedValue[T]` cell: `value`, `last` (`none` models the
zero `time.Time`), the configured `ttl`, and the `fetching` flag. -/
structure CachedValue (T : Type) where
  value : T
  last : Option Nat
  ttl : Nat
  fetching : Bool
  deriving Repr, DecidableEq

/-- The freshness test `!c.last.IsZero() && time.Since(c.last) < c.ttl`. -/
def CachedValue.isFresh {T : Type} (c : CachedValue T) (now : Nat) : Bool :=
  match c.last with
  | some t => now - t < c.ttl
  | none => false

/-- One call of `CachedValue.Get`.  `now` is the time at entry, `storeTime`
the time at which the fetched result is stored, and `fetchRes` the outcome
of the fetch closure (`none` models a fetch that terminates abnormally, so
that control never returns to `Get`).  Result: the value returned by `Get`
(`none` when the call aborts), the final cell state, and the number of
executions of `fetch` during the call. -/
def CachedValue.get {T : Type} (c : CachedValue T) (now storeTime : Nat)
    (fetchRes : Option T) : Option T × CachedValue T × Nat :=
  if c.isFresh now then
    (some c.value, c, 0)
  else if c.fetching then
    (some c.value, c, 0)
  else
    match fetchRes with
    | some v => (some v, { c with value := v, last := some storeTime, fetching := false }, 1)
    | none => (none, { c with fetching := true }, 1)

/-! ## server/handler.go — `Hub.Run`, incoming control messages -/

/-- Processing of one inbound hub message (the `case msg := <-h.incoming`
branch of `Hub.Run`).  `interval` is the current ticker interval in
milliseconds; `parsed` is the result of `json.Unmarshal` (`none` for a
malformed message, otherwise the decoded `action` and `rate` fields).
Returns the ticker interval after the message is handled. -/
def hubHandleIncoming (interval : Int) (parsed : Option (String × Int)) : Int :=
  match parsed with
  | none => interval
  | some (action, rate) =>
    if action = "set_rate" then
      if 250 ≤ rate ∧ rate ≤ 10000 then rate else interval
    else
      interval

/-! ## server/handler.go — `safeGo` / `CollectAll` -/

/-- The aggregate snapshot `AllMetrics` of `server/handler.go`: fourteen
metric categories (their payloads abstracted by `κ`, since each category's
internal structure is irrelevant to the aggregation contract), plus the
capture timestamp and the viewer count. -/
structure AllMetrics (κ : Type) where
  cpu : κ
  memory : κ
  disks : κ
  storageBreak : κ
  diskIO : κ
  network : κ
  battery : κ
  processes : κ
  system : κ
  thermal : κ
  gpu : κ
  security : κ
  connect : κ
  health : κ
  timestamp : Int
  clientCount : Int

/-- The outcome of each of the fourteen provider tasks launched by
`CollectAll`: `.ok v` when the provider returned `v`, `.error e` when it
terminated abnormally with panic payload `e`. -/
structure ProviderRun (κ : Type) where
  cpu : Except String κ
  memory : Except String κ
  disks : Except String κ
  storageBreak : Except String κ
  diskIO : Except String κ
  network : Except String κ
  battery : Except String κ
  processes : Except String κ
  system : Except String κ
  thermal : Except String κ
  gpu : Except String κ
  security : Except String κ
  connect : Except String κ
  health : Except String κ

/-- `safeGo`: the task's panic is recovered (and logged) inside the
spawned goroutine, so the field assignment never happens and the category
keeps the zero value `zero` it was initialised with in `&AllMetrics{}`. -/
def safeGoResult {κ : Type} (zero : κ) (task : Except String κ) : κ :=
  match task with
  | .ok v => v
  | .error _ => zero

/-- `CollectAll(clientCount)`: all fourteen provider tasks are joined
(`wg.Wait`), each category takes its provider's result or stays at the
zero value on panic, then the timestamp and client count are recorded. -/
def collectAll {κ : Type} (zero : κ) (runs : ProviderRun κ) (now : Int)
    (clientCount : Int) : AllMetrics κ :=
  { cpu := safeGoResult zero runs.cpu
    memory := safeGoResult zero runs.memory
    disks := safeGoResult zero runs.disks
    storageBreak := safeGoResult zero runs.storageBreak
    diskIO := safeGoResult zero runs.diskIO
    network := safeGoResult zero runs.network
    battery := safeGoResult zero runs.battery
    processes := safeGoResult zero runs.processes
    system := safeGoResult zero runs.system
    thermal := safeGoResult zero runs.thermal
    gpu := safeGoResult zero runs.gpu
    security := safeGoResult zero runs.security
    connect := safeGoResult zero runs.connect
    health := safeGoResult zero runs.health
    timestamp := now
    clientCount := clientCount }

/-- The fourteen provider outcomes, in the order `CollectAll` launches them. -/
def providerList {κ : Type} (runs : ProviderRun κ) : List (Except String κ) :=
  [runs.cpu, runs.memory, runs.disks, runs.storageBreak, runs.diskIO,
   runs.network, runs.battery, runs.processes, runs.system, runs.thermal,
   runs.gpu, runs.security, runs.connect, runs.health]

/-- The fourteen category fields of a snapshot, in the same order. -/
def metricsList {κ : Type} (m : AllMetrics κ) : List κ :=
  [m.cpu, m.memory, m.disks, m.storageBreak, m.diskIO, m.network, m.battery,
   m.processes, m.system, m.thermal, m.gpu, m.security, m.connect, m.health]

/-! ## server/handler.go + server/websocket.go — `Hub.Run` tick broadcast -/

/-- A connected viewer as the Hub sees it: an identifier, the contents of
its outbound queue (prepared messages abstracted as `Nat`), and the queue
capacity (`make(chan *websocket.PreparedMessage, 16)` in `ServeWs`). -/
structure HClient where
  id : Nat
  send : List Nat
  cap : Nat
  deriving Repr, DecidableEq

/-- The `select { case client.send <- pm: default: close; delete }` step of
the tick broadcast: `some` of the viewer with the message appended when the
queue has room, `none` (queue closed, viewer removed) when it is full. -/
def enqueueOrDrop (pm : Nat) (c : HClient) : Option HClient :=
  if c.send.length < c.cap then some { c with send := c.send ++ [pm] } else none

/-- The `case <-h.ticker.C` branch of `Hub.Run`.  `mkMsg count` models
`CollectAll(count)` followed by the single `json.Marshal` +
`NewPreparedMessage` of the snapshot.  Returns the viewers still
registered after the pass, the viewers whose queue was closed and who were
removed during the pass, and the number of collection/serialization
passes performed. -/
def hubTick (clients : List HClient) (mkMsg : Nat → Nat) :
    List HClient × List HClient × Nat :=
  if clients.length = 0 then
    (clients, [], 0)
  else
    let pm := mkMsg clients.length
    (clients.filterMap (enqueueOrDrop pm),
     clients.filter (fun c => c.cap ≤ c.send.length),
     1)

/-! ## monitor/process.go — the incremental process tracker -/

/-- `MB` from `monitor/constants.go`, as a rational. -/
def MBr : ℚ := 1024 * 1024

/-- A `cachedProc` record: display name and owner, resolved exactly once
when the record is created, plus a stamp identifying the record instance
(models the pointer identity of the `*process.Process` handle created for
it). -/
structure CachedProc where
  name : String
  user : String
  stamp : Nat
  deriving Repr, DecidableEq

/-- One output row (`ProcessInfo`).  Go `float64` values are modelled as
rationals; `sanitizeFloat` is the identity in this model. -/
structure ProcessInfo where
  pid : Int
  name : String
  cpu : ℚ
  memMB : ℚ
  memPct : ℚ
  user : String
  deriving Repr, DecidableEq

/-- The OS facilities one tracker pass consults.  `resolve pid` models
`process.NewProcess` together with the `Name`/`Cmdline`/`Username`
resolution (`none` when `NewProcess` fails or that code panics); `rss pid`
models `MemoryInfo` (`none` on error); `cpu pid` the `Percent(0)` sample;
`totalMem` the `mem.VirtualMemory().Total` figure; `stamp` the identity
stamped on records created during this pass. -/
structure ProcEnv where
  resolve : Int → Option (String × String)
  rss : Int → Option Nat
  cpu : Int → ℚ
  totalMem : Nat
  stamp : Nat

/-- The shared tail of `processOnePID`: sample CPU and memory from the
(possibly reused) record and build this tick's row; `none` models the
zero-`pid` failure return when `MemoryInfo` errors. -/
def mkProcRow (env : ProcEnv) (pid : Int) (cp : CachedProc) (isNew : Bool) :
    Option (ProcessInfo × CachedProc × Bool) :=
  match env.rss pid with
  | none => none
  | some r =>
    let memPct : ℚ := if env.totalMem > 0 then (r : ℚ) / (env.totalMem : ℚ) * 100 else 0
    some (⟨pid, cp.name, env.cpu pid, (r : ℚ) / MBr, memPct, cp.user⟩, cp, isNew)

/-- `processOnePID`: reuse the snapshot's record when one exists for the
pid, otherwise create one (resolving name and owner now, and only now);
failures and recovered panics yield `none` (the zero result). -/
def processOnePID (env : ProcEnv) (snapshot : Int → Option CachedProc)
    (pid : Int) : Option (ProcessInfo × CachedProc × Bool) :=
  match snapshot pid with
  | some cp => mkProcRow env pid cp false
  | none =>
    match env.resolve pid with
    | none => none
    | some (n, u) => mkProcRow env pid ⟨n, u, env.stamp⟩ true

/-- The accumulation step of the enumeration loop in `GetProcesses`:
append the row and, for a newly created record, stage it in `newEntries`
(the second component, a delta map). -/
def passStep (env : ProcEnv) (snapshot : Int → Option CachedProc)
    (acc : List ProcessInfo × (Int → Option CachedProc)) (pid : Int) :
    List ProcessInfo × (Int → Option CachedProc) :=
  match processOnePID env snapshot pid with
  | some (info, cp, isNew) =>
    (acc.1 ++ [info],
     if isNew then (fun q => if q = pid then some cp else acc.2 q) else acc.2)
  | none => acc

/-- The enumeration loop of `GetProcesses` over all pids. -/
def passFold (env : ProcEnv) (snapshot : Int → Option CachedProc)
    (pids : List Int) (acc : List ProcessInfo × (Int → Option CachedProc)) :
    List ProcessInfo × (Int → Option CachedProc) :=
  pids.foldl (passStep env snapshot) acc

/-- One full (non-shed) `GetProcesses` pass: snapshot the cache, process
every enumerated pid against the snapshot, merge the staged `newEntries`
into the cache, then evict every cached record whose pid was not observed
in this enumeration.  Returns the rows (before the by-CPU sort and top-25
truncation, which do not touch the cache) and the new cache. -/
def getProcessesPass (env : ProcEnv) (pids : List Int)
    (cache : Int → Option CachedProc) :
    List ProcessInfo × (Int → Option CachedProc) :=
  let snapshot := cache
  let fold := passFold env snapshot pids ([], fun _ => none)
  let merged : Int → Option CachedProc := fun q =>
    match fold.2 q with
    | some cp => some cp
    | none => cache q
  (fold.1, fun q => if q ∈ pids then merged q else none)

/-! ## Storage reconciler — `updateBreakdown` / `GetStorageBreakdown` -/

/-- One named slice of the storage breakdown (`StorageCategory`). -/
structure StorageCategory where
  name : String
  size : ℚ
  icon : String
  deriving Repr, DecidableEq

/-- The reconciled storage figure (`StorageBreakdown`). -/
structure StorageBreakdown where
  totalGB : ℚ
  usedGB : ℚ
  freeGB : ℚ
  purgeableGB : ℚ
  categories : List StorageCategory
  deriving Repr, DecidableEq

/-- One `df -k` row after parsing (`DiskInfo`). -/
structure DiskInfo where
  filesystem : String
  mountPoint : String
  totalGB : ℚ
  usedGB : ℚ
  freeGB : ℚ
  usedPct : ℚ
  deriving Repr, DecidableEq

/-- `apfsContainerInfo` parsed out of `diskutil apfs list` / `diskutil info`. -/
structure ApfsContainerInfo where
  totalBytes : Int
  usedBytes : Int
  freeBytes : Int
  purgeableBytes : Int
  deriving Repr, DecidableEq

/-- The `1e9` bytes-per-GB divisor (`const toGB = 1e9`). -/
def toGB : ℚ := 1000000000

/-- `purgeable` in the first (Foundation) tier:
`(foundOpport - foundBasic) / 1e9`, clamped at zero. -/
def t1purgeable (foundBasic foundOpport : Int) : ℚ :=
  if ((foundOpport - foundBasic : Int) : ℚ) / toGB < 0 then 0
  else ((foundOpport - foundBasic : Int) : ℚ) / toGB

/-- One step of the `df`-row loop shared by the first two tiers: `/` sets
`systemUsed`, `/System/Volumes/Data` sets `dataUsed = usedGB - purgeable`
clamped at zero. -/
def sysDataStep (purgeable : ℚ) (acc : ℚ × ℚ) (d : DiskInfo) : ℚ × ℚ :=
  if d.mountPoint = "/" then (d.usedGB, acc.2)
  else if d.mountPoint = "/System/Volumes/Data" then
    (acc.1, if d.usedGB - purgeable < 0 then 0 else d.usedGB - purgeable)
  else acc

/-- The `df`-row loop of the first two tiers: `(systemUsed, dataUsed)`. -/
def sysDataUsed (disks : List DiskInfo) (purgeable : ℚ) : ℚ × ℚ :=
  disks.foldl (sysDataStep purgeable) (0, 0)

/-- One step of the `df`-row loop in the last-resort tier: `/` sets total,
free and `systemUsed`; `/System/Volumes/Data` sets `dataUsed`. -/
def tier3Step (acc : ℚ × ℚ × ℚ × ℚ) (d : DiskInfo) : ℚ × ℚ × ℚ × ℚ :=
  if d.mountPoint = "/" then (d.totalGB, d.freeGB, d.usedGB, acc.2.2.2)
  else if d.mountPoint = "/System/Volumes/Data" then
    (acc.1, acc.2.1, acc.2.2.1, d.usedGB)
  else acc

/-- The `df`-row loop of the last-resort tier:
`(total, free, systemUsed, dataUsed)`. -/
def tier3Totals (disks : List DiskInfo) : ℚ × ℚ × ℚ × ℚ :=
  disks.foldl tier3Step (0, 0, 0, 0)

/-- The category-decomposition block that the source repeats verbatim in
each tier: `macOS` when positive, `Data` when positive, and `Other` when
the known categories fall short of `used` by more than the 1 GB
reconciliation tolerance (with `known = systemUsed + dataUsed`). -/
def standardCategories (systemUsed dataUsed used : ℚ) : List StorageCategory :=
  (if systemUsed > 0 then [⟨"macOS", systemUsed, "system"⟩] else []) ++
  (if dataUsed > 0 then [⟨"Data", dataUsed, "apps"⟩] else []) ++
  (if used > systemUsed + dataUsed + 1 then
    [⟨"Other", used - (systemUsed + dataUsed), "doc"⟩] else [])

/-- First tier of `updateBreakdown`: the native Foundation volume-capacity
query supplied total/basic/opportunistic byte counts. -/
def breakdownTier1 (disks : List DiskInfo)
    (foundTotal foundBasic foundOpport : Int) : StorageBreakdown :=
  let total : ℚ := (foundTotal : ℚ) / toGB
  let purgeable : ℚ := t1purgeable foundBasic foundOpport
  let free : ℚ := (foundOpport : ℚ) / toGB
  let used : ℚ := total - free
  let sd := sysDataUsed disks purgeable
  let categories := standardCategories sd.1 sd.2 used ++ [⟨"Free", free, "free"⟩]
  ⟨total, used, free, purgeable, categories⟩

/-- Second tier of `updateBreakdown`: figures parsed from
`diskutil apfs list` plus the purgeable figure from `diskutil info`; a
`Purgeable` category appears above half a GB, and the `Free` category
shows the basic (non-opportunistic) free space. -/
def breakdownTier2 (disks : List DiskInfo) (c : ApfsContainerInfo) :
    StorageBreakdown :=
  let total : ℚ := (c.totalBytes : ℚ) / toGB
  let purgeable : ℚ := (c.purgeableBytes : ℚ) / toGB
  let basicFreeBytes : ℚ := (c.freeBytes : ℚ) / toGB
  let free : ℚ := basicFreeBytes + purgeable
  let used : ℚ := total - free
  let sd := sysDataUsed disks purgeable
  let categories :=
    standardCategories sd.1 sd.2 used ++
    (if purgeable > 1 / 2 then [⟨"Purgeable", purgeable, "snapshot"⟩] else []) ++
    [⟨"Free", basicFreeBytes, "free"⟩]
  ⟨total, used, free, purgeable, categories⟩

/-- Last-resort tier of `updateBreakdown`: plain `df` figures only
(`purgeable` stays at its zero initialisation). -/
def breakdownTier3 (disks : List DiskInfo) : StorageBreakdown :=
  let t := tier3Totals disks
  let used := t.1 - t.2.1
  let categories :=
    standardCategories t.2.2.1 t.2.2.2 used ++ [⟨"Free", t.2.1, "free"⟩]
  ⟨t.1, used, t.2.1, 0, categories⟩

/-- `updateBreakdown`, as a function of its three data sources: the `df`
rows, the Foundation byte counts (zero when the query failed), and the
parsed APFS container info (`none` when `diskutil` failed).  First source
that yields usable data wins. -/
def updateBreakdown (disks : List DiskInfo)
    (foundTotal foundBasic foundOpport : Int)
    (apfs : Option ApfsContainerInfo) : StorageBreakdown :=
  if foundTotal > 0 ∧ foundOpport > 0 then
    breakdownTier1 disks foundTotal foundBasic foundOpport
  else
    match apfs with
    | some c =>
      if c.totalBytes > 0 then breakdownTier2 disks c else breakdownTier3 disks
    | none => breakdownTier3 disks

/-- Sum of the category sizes of a breakdown. -/
def sumSizes (cats : List StorageCategory) : ℚ :=
  (cats.map (fun cat => cat.size)).sum

/-- The reconciliation invariant claimed by the specification: the
categories sum to `usedGB + freeGB` within a small fixed tolerance
(1.5 GB here), and no produced figure is negative. -/
def reconciliationInvariant (b : StorageBreakdown) : Prop :=
  |sumSizes b.categories - (b.usedGB + b.freeGB)| ≤ 3 / 2 ∧
  0 ≤ b.totalGB ∧ 0 ≤ b.usedGB ∧ 0 ≤ b.freeGB ∧ 0 ≤ b.purgeableGB ∧
  ∀ cat ∈ b.categories, 0 ≤ cat.size

/-! ## server/auth.go — login rate limiting and `handleLogin` -/

/-- `maxLoginAttempts` from `server/auth.go`. -/
def maxLoginAttempts : Int := 5

/-- `lockoutDuration` (15 minutes) in nanoseconds. -/
def lockoutDuration : Nat := 15 * 60 * 1000000000

/-- A `loginAttempt` record: failure count and time of the last failure. -/
structure LoginAttempt where
  count : Int
  lastFail : Nat
  deriving Repr, DecidableEq

/-- The per-source-address attempts table (`attempts` map), modelled as a
function from addresses to optional records. -/
def AttemptsMap : Type := String → Option LoginAttempt

/-- `checkRateLimit(ip)`: returns `(remaining, lockedUntil, allowed)` and
the updated table (the entry is deleted when the lockout window has
elapsed).  `lockedUntil = none` models the zero `time.Time`. -/
def checkRateLimit (m : AttemptsMap) (ip : String) (now : Nat) :
    (Int × Option Nat × Bool) × AttemptsMap :=
  match m ip with
  | none => ((maxLoginAttempts, none, true), m)
  | some a =>
    if a.count ≥ maxLoginAttempts ∧ now - a.lastFail > lockoutDuration then
      ((maxLoginAttempts, none, true), fun q => if q = ip then none else m q)
    else if a.count ≥ maxLoginAttempts then
      ((0, some (a.lastFail + lockoutDuration), false), m)
    else
      ((maxLoginAttempts - a.count, none, true), m)

/-- `recordFailedAttempt(ip)`: create the entry if absent, increment its
count, stamp the failure time, and return the remaining attempts. -/
def recordFailedAttempt (m : AttemptsMap) (ip : String) (now : Nat) :
    Int × AttemptsMap :=
  let a := (m ip).getD ⟨0, 0⟩
  (maxLoginAttempts - (a.count + 1),
   fun q => if q = ip then some ⟨a.count + 1, now⟩ else m q)

/-- `clearAttempts(ip)`. -/
def clearAttempts (m : AttemptsMap) (ip : String) : AttemptsMap :=
  fun q => if q = ip then none else m q

/-- The JSON responses `handleLogin` can produce (the method check is
handled before this logic and not modelled). -/
inductive LoginResponse where
  | tooMany (lockedUntil : Nat) (remaining : Int)   -- 429
  | badRequest                                      -- 400
  | unauthorized (remaining : Int)                  -- 401 "Invalid password"
  | ok                                              -- 200, session minted
  deriving Repr, DecidableEq

/-- `handleLogin` (from the rate-limit check on): `body` is the decoded
`password` field (`none` when the ≤256-byte body fails to decode),
`passwordBytes` the Go `len` of the password (its UTF-8 byte count), and
`bcryptOk` the outcome of `bcrypt.CompareHashAndPassword` against the
stored hash.  Returns the response, the final attempts table, and whether
the stored-hash comparison was executed. -/
def handleLogin (m : AttemptsMap) (ip : String) (now : Nat)
    (body : Option String) (bcryptOk : String → Bool) :
    LoginResponse × AttemptsMap × Bool :=
  let rl := checkRateLimit m ip now
  let m₁ := rl.2
  if rl.1.2.2 = false then
    (.tooMany (rl.1.2.1.getD 0) 0, m₁, false)
  else
    match body with
    | none => (.badRequest, m₁, false)
    | some p =>
      if p.utf8ByteSize = 0 ∨ p.utf8ByteSize > 72 then
        let fa := recordFailedAttempt m₁ ip now
        (.unauthorized fa.1, fa.2, false)
      else if bcryptOk p then
        (.ok, clearAttempts m₁ ip, true)
      else
        let fa := recordFailedAttempt m₁ ip now
        (.unauthorized fa.1, fa.2, true)

/-! ## server/auth.go — `AuthMiddleware` -/

/-- A session record (`server/auth.go`): token, CSRF token, creation time. -/
structure Session where
  token : String
  csrf : String
  created : Nat
  deriving Repr, DecidableEq

/-- Outcome of `AuthMiddleware` for one request. -/
inductive AuthResult where
  | unauthorized   -- 401, handler not invoked
  | forbidden      -- 403, handler not invoked
  | passthrough    -- `next.ServeHTTP` invoked
  deriving Repr, DecidableEq

/-- `isStaticAsset` from `server/auth.go`: the path is longer than one of
the listed extensions and ends with it (suffix comparison done on the
character list, which agrees with Go's byte-suffix test for these ASCII
extensions). -/
def isStaticAsset (path : String) : Bool :=
  [".css", ".js", ".woff", ".woff2", ".ttf", ".ico", ".png", ".jpg", ".svg"].any
    fun ext => path.data.length > ext.data.length && ext.data.isSuffixOf path.data

/-- `AuthMiddleware` from `server/auth.go`.  `sess` is the result of
`getSessionFromRequest` (a valid, unexpired session or `none`); `csrfHeader`
is `r.Header.Get("X-CSRF-Token")` (`""` when the header is absent). -/
def authMiddleware (sess : Option Session) (path method csrfHeader : String) :
    AuthResult :=
  if isStaticAsset path then
    .passthrough
  else
    match sess with
    | none =>
      if path = "/" ∨ path = "/index.html" then .passthrough else .unauthorized
    | some s =>
      if method ≠ "GET" ∧ method ≠ "HEAD" ∧ method ≠ "OPTIONS" then
        if csrfHeader = "" ∨ csrfHeader ≠ s.csrf then .forbidden else .passthrough
      else
        .passthrough

/-! # Theorems -/

/-- **C1.** `CachedValue.Get`: a fresh value is returned without calling
`fetch`; a stale value with another fetch in flight is returned immediately
without calling `fetch`; otherwise `fetch` runs exactly once, its result is
stored with a new timestamp, the flag is cleared, and the result returned. -/
theorem cachedValue_get_spec {T : Type} (c : CachedValue T) (now storeTime : Nat)
    (v : T) :
    (∀ t, c.last = some t → now - t < c.ttl →
      c.get now storeTime (some v) = (some c.value, c, 0)) ∧
    (c.isFresh now = false → c.fetching = true →
      c.get now storeTime (some v) = (some c.value, c, 0)) ∧
    (c.isFresh now = false → c.fetching = false →
      c.get now storeTime (some v) =
        (some v, { c with value := v, last := some storeTime, fetching := false }, 1)) := by
  refine ⟨?_, ?_, ?_⟩
  · intro t ht hlt
    have hfresh : c.isFresh now = true := by
      simp [CachedValue.isFresh, ht, hlt]
    simp [CachedValue.get, hfresh]
  · intro hfresh hfl
    simp [CachedValue.get, hfresh, hfl]
  · intro hfresh hfl
    simp [CachedValue.get, hfresh, hfl]

/-- Witness for C1 at a concrete cell. -/
theorem cachedValue_get_spec_witness :
    (CachedValue.get ⟨10, some 5, 100, false⟩ 50 60 (some 7) =
      (some 10, ⟨10, some 5, 100, false⟩, 0)) ∧
    (CachedValue.get ⟨10, some 5, 100, true⟩ 900 901 (some 7) =
      (some 10, ⟨10, some 5, 100, true⟩, 0)) ∧
    (CachedValue.get ⟨10, some 5, 100, false⟩ 900 901 (some 7) =
      (some 7, ⟨7, some 901, 100, false⟩, 1)) := by
  refine ⟨(cachedValue_get_spec ⟨10, some 5, 100, false⟩ 50 60 7).1 5 rfl (by decide),
          (cachedValue_get_spec ⟨10, some 5, 100, true⟩ 900 901 7).2.1 (by decide) rfl,
          (cachedValue_get_spec ⟨10, some 5, 100, false⟩ 900 901 7).2.2 (by decide) rfl⟩

/-- **C2 (code bug).** The source of `CachedValue.Get` has no
`defer`/`recover` around `fetch`: when the caller has become the exclusive
fetcher and `fetch` terminates abnormally, the `fetching` flag is left set
forever, so all future refreshes of the cell are starved. -/
theorem cachedValue_get_abnormal_leaves_flag_set {T : Type} (c : CachedValue T)
    (now storeTime : Nat) (hfresh : c.isFresh now = false)
    (hfl : c.fetching = false) :
    ((c.get now storeTime none).2.1).fetching = true ∧
      (c.get now storeTime none).1 = none := by
  simp [CachedValue.get, hfresh, hfl]

/-- Witness for C2 at a concrete cell: a stale, idle cell whose fetch
panics is left with `fetching = true`. -/
theorem cachedValue_get_abnormal_witness :
    ((CachedValue.get ⟨10, some 5, 100, false⟩ 900 901 none).2.1).fetching = true ∧
      (CachedValue.get ⟨10, some 5, 100, false⟩ 900 901 none).1 = none :=
  cachedValue_get_abnormal_leaves_flag_set ⟨10, some 5, 100, false⟩ 900 901
    (by decide) rfl

/-- **C9.** `set_rate` with a rate inside `[250, 10000]` resets the
sampling interval to that rate; rates outside the range, other actions,
and malformed messages leave the interval unchanged. -/
theorem hub_set_rate_spec (interval : Int) :
    (∀ r : Int, 250 ≤ r → r ≤ 10000 →
      hubHandleIncoming interval (some ("set_rate", r)) = r) ∧
    (∀ r : Int, r < 250 ∨ 10000 < r →
      hubHandleIncoming interval (some ("set_rate", r)) = interval) ∧
    (∀ (a : String) (r : Int), a ≠ "set_rate" →
      hubHandleIncoming interval (some (a, r)) = interval) ∧
    hubHandleIncoming interval none = interval := by
  refine ⟨?_, ?_, ?_, rfl⟩
  · intro r h1 h2
    simp [hubHandleIncoming, h1, h2]
  · intro r h
    rcases h with h | h
    · simp [hubHandleIncoming]
      intro h'
      omega
    · simp [hubHandleIncoming]
      intro h'
      omega
  · intro a r ha
    simp [hubHandleIncoming, ha]

/-- Witness for C9: rate 5000 changes the interval, 100 and 99999 do not,
an unknown action does not, a malformed message does not. -/
theorem hub_set_rate_witness :
    hubHandleIncoming 1000 (some ("set_rate", 5000)) = 5000 ∧
    hubHandleIncoming 1000 (some ("set_rate", 100)) = 1000 ∧
    hubHandleIncoming 1000 (some ("set_rate", 99999)) = 1000 ∧
    hubHandleIncoming 1000 (some ("other", 5000)) = 1000 ∧
    hubHandleIncoming 1000 none = 1000 :=
  ⟨(hub_set_rate_spec 1000).1 5000 (by decide) (by decide),
   (hub_set_rate_spec 1000).2.1 100 (Or.inl (by decide)),
   (hub_set_rate_spec 1000).2.1 99999 (Or.inr (by decide)),
   (hub_set_rate_spec 1000).2.2.1 "other" 5000 (by decide),
   (hub_set_rate_spec 1000).2.2.2⟩

/-- **C8 counterexample.** The claim says every request with a valid
session and a state-mutating method but a missing or wrong CSRF header is
answered 403 with the handler never invoked.  The code exempts every
static-asset path from the CSRF check: a `POST` to `/x.css` with a valid
session and no CSRF header is passed straight through to the handler. -/
theorem authMiddleware_csrf_counterexample :
    authMiddleware (some ⟨"tok", "csrfsecret", 0⟩) "/x.css" "POST" "" =
      AuthResult.passthrough := by
  decide

/-- **C8 (amended).** For every request to a non-static-asset path
carrying a valid session and a state-mutating method: a missing or
non-matching `X-CSRF-Token` header yields 403 with the handler never
invoked, and a matching header passes the request through. -/
theorem authMiddleware_csrf_spec (s : Session) (path method header : String)
    (hasset : isStaticAsset path = false)
    (hmut : method ≠ "GET" ∧ method ≠ "HEAD" ∧ method ≠ "OPTIONS") :
    (header = "" ∨ header ≠ s.csrf →
      authMiddleware (some s) path method header = AuthResult.forbidden) ∧
    (header = s.csrf → header ≠ "" →
      authMiddleware (some s) path method header = AuthResult.passthrough) := by
  constructor
  · intro hbad
    simp [authMiddleware, hasset, hmut, hbad]
  · intro hgood hne
    simp [authMiddleware, hasset, hmut, hgood]
    simp [hgood] at hne
    simp [hne]

/-- Witness for the amended C8 at a concrete request. -/
theorem authMiddleware_csrf_witness :
    (authMiddleware (some ⟨"tok", "csrfsecret", 0⟩) "/api/kill" "POST" "" =
      AuthResult.forbidden) ∧
    (authMiddleware (some ⟨"tok", "csrfsecret", 0⟩) "/api/kill" "POST" "wrong" =
      AuthResult.forbidden) ∧
    (authMiddleware (some ⟨"tok", "csrfsecret", 0⟩) "/api/kill" "POST" "csrfsecret" =
      AuthResult.passthrough) := by
  refine ⟨(authMiddleware_csrf_spec ⟨"tok", "csrfsecret", 0⟩ "/api/kill" "POST" ""
            (by decide) (by decide)).1 (Or.inl rfl),
          (authMiddleware_csrf_spec ⟨"tok", "csrfsecret", 0⟩ "/api/kill" "POST" "wrong"
            (by decide) (by decide)).1 (Or.inr (by decide)),
          (authMiddleware_csrf_spec ⟨"tok", "csrfsecret", 0⟩ "/api/kill" "POST" "csrfsecret"
            (by decide) (by decide)).2 rfl (by decide)⟩

/-- **C3.** `CollectAll`: the returned snapshot assigns to each of the
fourteen categories exactly its own provider's recovered outcome — the
provider's value on normal return, the category's zero value when the
provider panicked — and always carries the capture timestamp and the given
client count; no provider failure escapes to the caller (the result is a
total function of all fourteen outcomes). -/
theorem collectAll_spec {κ : Type} (zero : κ) (runs : ProviderRun κ)
    (now cc : Int) :
    metricsList (collectAll zero runs now cc) =
      (providerList runs).map (safeGoResult zero) ∧
    (collectAll zero runs now cc).timestamp = now ∧
    (collectAll zero runs now cc).clientCount = cc ∧
    (providerList runs).length = 14 ∧
    (∀ (t : Except String κ) (e : String), t = .error e → safeGoResult zero t = zero) ∧
    (∀ (t : Except String κ) (v : κ), t = .ok v → safeGoResult zero t = v) := by
  refine ⟨rfl, rfl, rfl, rfl, ?_, ?_⟩
  · intro t e ht
    simp [ht, safeGoResult]
  · intro t v ht
    simp [ht, safeGoResult]

/-- Witness for C3: one provider (memory) panics, the others return; its
category is the zero value, the rest hold their providers' results, and
the timestamp and client count are recorded. -/
theorem collectAll_spec_witness :
    metricsList (collectAll (0 : Int)
        ⟨.ok 1, .error "boom", .ok 3, .ok 4, .ok 5, .ok 6, .ok 7, .ok 8,
         .ok 9, .ok 10, .ok 11, .ok 12, .ok 13, .ok 14⟩ 777 3) =
      [1, 0, 3, 4, 5, 6, 7, 8, 9, 10, 11, 12, 13, 14] ∧
    (collectAll (0 : Int)
        ⟨.ok 1, .error "boom", .ok 3, .ok 4, .ok 5, .ok 6, .ok 7, .ok 8,
         .ok 9, .ok 10, .ok 11, .ok 12, .ok 13, .ok 14⟩ 777 3).timestamp = 777 := by
  have h := collectAll_spec (0 : Int)
      ⟨.ok 1, .error "boom", .ok 3, .ok 4, .ok 5, .ok 6, .ok 7, .ok 8,
       .ok 9, .ok 10, .ok 11, .ok 12, .ok 13, .ok 14⟩ 777 3
  have hz := h.2.2.2.2.1 (.error "boom") "boom" rfl
  refine ⟨?_, h.2.1⟩
  rw [h.1]
  simp [providerList, safeGoResult]

/-- The tick broadcast keeps exactly the viewers with queue room, each
with the one prepared message appended. -/
theorem filterMap_enqueueOrDrop (pm : Nat) (l : List HClient) :
    l.filterMap (enqueueOrDrop pm) =
      (l.filter (fun c => c.send.length < c.cap)).map
        (fun c => { c with send := c.send ++ [pm] }) := by
  induction l with
  | nil => rfl
  | cons c t ih =>
    by_cases h : c.send.length < c.cap
    · simp [List.filterMap_cons, enqueueOrDrop, h, List.filter_cons, ih]
    · simp [List.filterMap_cons, enqueueOrDrop, h, List.filter_cons, ih]

/-- **C4.** A tick with a non-empty registry collects and serializes the
snapshot exactly once; every viewer with queue room stays registered with
that identical prepared message appended to its queue; every viewer whose
queue is full is removed (its queue closed) in the same pass, while the
broadcast completes for all others; a tick with an empty registry performs
no collection and changes nothing. -/
theorem hubTick_spec (clients : List HClient) (mkMsg : Nat → Nat) :
    (clients ≠ [] →
      (hubTick clients mkMsg).2.2 = 1 ∧
      (hubTick clients mkMsg).1 =
        (clients.filter (fun c => c.send.length < c.cap)).map
          (fun c => { c with send := c.send ++ [mkMsg clients.length] }) ∧
      (hubTick clients mkMsg).2.1 =
        clients.filter (fun c => c.cap ≤ c.send.length) ∧
      (∀ c ∈ clients, c.send.length < c.cap →
        { c with send := c.send ++ [mkMsg clients.length] } ∈ (hubTick clients mkMsg).1) ∧
      (∀ c ∈ clients, c.cap ≤ c.send.length → c ∈ (hubTick clients mkMsg).2.1)) ∧
    (clients = [] → hubTick clients mkMsg = (clients, [], 0)) := by
  constructor
  · intro hne
    have hlen : ¬ clients.length = 0 := by
      simpa [List.length_eq_zero] using hne
    refine ⟨by simp [hubTick, hlen], ?_, by simp [hubTick, hlen], ?_, ?_⟩
    · simp [hubTick, hlen, filterMap_enqueueOrDrop]
    · intro c hc hroom
      simp only [hubTick, hlen, if_false, filterMap_enqueueOrDrop]
      exact List.mem_map_of_mem _ (List.mem_filter.2 ⟨hc, by simpa using hroom⟩)
    · intro c hc hfull
      simp only [hubTick, hlen, if_false]
      exact List.mem_filter.2 ⟨hc, by simpa using hfull⟩
  · intro h
    simp [hubTick, h]

/-- Witness for C4: two viewers, one with room (capacity 2, queue empty)
and one saturated (capacity 2, queue full); the first receives the one
prepared message, the second is removed, and an empty registry ticks
without collecting. -/
theorem hubTick_spec_witness :
    (hubTick [⟨1, [], 2⟩, ⟨2, [9, 9], 2⟩] (fun n => n * 100)).2.2 = 1 ∧
    (⟨1, [200], 2⟩ : HClient) ∈ (hubTick [⟨1, [], 2⟩, ⟨2, [9, 9], 2⟩] (fun n => n * 100)).1 ∧
    (⟨2, [9, 9], 2⟩ : HClient) ∈ (hubTick [⟨1, [], 2⟩, ⟨2, [9, 9], 2⟩] (fun n => n * 100)).2.1 ∧
    hubTick [] (fun n => n * 100) = ([], [], 0) := by
  have h := hubTick_spec [⟨1, [], 2⟩, ⟨2, [9, 9], 2⟩] (fun n => n * 100)
  have h1 := h.1 (by decide)
  exact ⟨h1.1,
         h1.2.2.2.1 ⟨1, [], 2⟩ (by decide) (by decide),
         h1.2.2.2.2 ⟨2, [9, 9], 2⟩ (by decide) (by decide),
         (hubTick_spec [] (fun n => n * 100)).2 rfl⟩

/-- **C7.** Lockout: with 5 accumulated failures whose most recent one is
inside the 15-minute window, the next login attempt is rejected 429 with
`remaining = 0` and a not-yet-elapsed `locked_until`, the credential is not
evaluated and the failure counter is unchanged; once the window has
elapsed, the entry is dropped and the next attempt is evaluated normally
(bcrypt runs; on a fresh failure the counter restarts at 1). -/
theorem login_lockout_spec (m : AttemptsMap) (ip : String) (now : Nat)
    (body : Option String) (bcryptOk : String → Bool) :
    (∀ a : LoginAttempt, m ip = some a → a.count ≥ maxLoginAttempts →
      now - a.lastFail ≤ lockoutDuration →
      handleLogin m ip now body bcryptOk =
        (.tooMany (a.lastFail + lockoutDuration) 0, m, false) ∧
      now ≤ a.lastFail + lockoutDuration) ∧
    (∀ (a : LoginAttempt) (p : String), m ip = some a →
      a.count ≥ maxLoginAttempts → now - a.lastFail > lockoutDuration →
      body = some p → ¬ (p.utf8ByteSize = 0 ∨ p.utf8ByteSize > 72) →
      (handleLogin m ip now body bcryptOk).2.2 = true ∧
      (handleLogin m ip now body bcryptOk).2.1 ip =
        (if bcryptOk p then none else some ⟨1, now⟩) ∧
      (handleLogin m ip now body bcryptOk).1 =
        (if bcryptOk p then .ok else .unauthorized 4)) := by
  constructor
  · intro a ha hcnt hwin
    have hno : ¬ (a.count ≥ maxLoginAttempts ∧ now - a.lastFail > lockoutDuration) := by
      rintro ⟨_, h⟩
      omega
    have hrl : checkRateLimit m ip now =
        ((0, some (a.lastFail + lockoutDuration), false), m) := by
      simp only [checkRateLimit, ha]
      rw [if_neg hno, if_pos hcnt]
    refine ⟨?_, by omega⟩
    simp [handleLogin, hrl]
  · intro a p ha hcnt hexp hbody hlen
    have hrl : checkRateLimit m ip now =
        ((maxLoginAttempts, none, true), fun q => if q = ip then none else m q) := by
      simp only [checkRateLimit, ha]
      rw [if_pos ⟨hcnt, hexp⟩]
    by_cases hb : bcryptOk p
    · simp [handleLogin, hrl, hbody, hlen, hb, clearAttempts]
    · simp [handleLogin, hrl, hbody, hlen, hb, recordFailedAttempt,
            maxLoginAttempts]

/-- Witness for C7: address with 5 failures, last at t = 1000.  At
t = 2000 (inside the window) the attempt is rejected 429 with zero
remaining, a future `locked_until`, no credential check and no counter
change; at t = 10¹² (window elapsed) the credential is evaluated and a
fresh failure restarts the counter at 1. -/
theorem login_lockout_witness :
    (handleLogin (fun q => if q = "10.0.0.9" then some ⟨5, 1000⟩ else none)
        "10.0.0.9" 2000 (some "pw") (fun _ => false) =
      (.tooMany (1000 + lockoutDuration) 0,
       (fun q => if q = "10.0.0.9" then some ⟨5, 1000⟩ else none), false)) ∧
    2000 ≤ 1000 + lockoutDuration ∧
    ((handleLogin (fun q => if q = "10.0.0.9" then some ⟨5, 1000⟩ else none)
        "10.0.0.9" 1000000000000 (some "pw") (fun _ => false)).2.2 = true) ∧
    ((handleLogin (fun q => if q = "10.0.0.9" then some ⟨5, 1000⟩ else none)
        "10.0.0.9" 1000000000000 (some "pw") (fun _ => false)).2.1 "10.0.0.9" =
      some ⟨1, 1000000000000⟩) := by
  have h := login_lockout_spec
      (fun q => if q = "10.0.0.9" then some ⟨5, 1000⟩ else none)
      "10.0.0.9" 2000 (some "pw") (fun _ => false)
  have h' := login_lockout_spec
      (fun q => if q = "10.0.0.9" then some ⟨5, 1000⟩ else none)
      "10.0.0.9" 1000000000000 (some "pw") (fun _ => false)
  have h1 := h.1 ⟨5, 1000⟩ (by simp) (by decide) (by decide)
  have h2 := h'.2 ⟨5, 1000⟩ "pw" (by simp) (by decide) (by decide) rfl (by decide)
  exact ⟨h1.1, h1.2, h2.1, by simpa using h2.2.1⟩

/-- **C10.** A decoded password that is empty or longer than 72 bytes is
rejected 401 without ever invoking the stored-hash comparison, and the
address's failure counter is incremented — independently of whether the
password would have matched the credential. -/
theorem login_password_length_spec (m : AttemptsMap) (ip : String) (now : Nat)
    (p : String) (bcryptOk : String → Bool)
    (hallowed : (checkRateLimit m ip now).1.2.2 = true)
    (hlen : p.utf8ByteSize = 0 ∨ p.utf8ByteSize > 72) :
    handleLogin m ip now (some p) bcryptOk =
      (.unauthorized (maxLoginAttempts -
          ((((checkRateLimit m ip now).2 ip).getD ⟨0, 0⟩).count + 1)),
       fun q => if q = ip then
           some ⟨(((checkRateLimit m ip now).2 ip).getD ⟨0, 0⟩).count + 1, now⟩
         else (checkRateLimit m ip now).2 q,
       false) := by
  simp only [handleLogin, recordFailedAttempt, hallowed]
  rw [if_neg (by simp), if_pos hlen]

/-- Witness for C10: an empty password and an 80-byte password are both
rejected 401 with the counter incremented and bcrypt never run, even
though the supplied `bcryptOk` oracle would have accepted them. -/
theorem login_password_length_witness :
    (handleLogin (fun _ => none) "10.0.0.9" 500 (some "") (fun _ => true)).1 =
      .unauthorized 4 ∧
    (handleLogin (fun _ => none) "10.0.0.9" 500 (some "") (fun _ => true)).2.2 =
      false ∧
    (handleLogin (fun _ => none) "10.0.0.9" 500 (some "") (fun _ => true)).2.1
        "10.0.0.9" = some ⟨1, 500⟩ ∧
    (handleLogin (fun _ => none) "10.0.0.9" 500
        (some (String.mk (List.replicate 80 'x'))) (fun _ => true)).1 =
      .unauthorized 4 ∧
    (handleLogin (fun _ => none) "10.0.0.9" 500
        (some (String.mk (List.replicate 80 'x'))) (fun _ => true)).2.2 =
      false := by
  have h1 := login_password_length_spec (fun _ => none) "10.0.0.9" 500 ""
      (fun _ => true) rfl (Or.inl (by decide))
  have h2 := login_password_length_spec (fun _ => none) "10.0.0.9" 500
      (String.mk (List.replicate 80 'x')) (fun _ => true) rfl
      (Or.inr (by decide))
  refine ⟨?_, ?_, ?_, ?_, ?_⟩
  · rw [h1]; rfl
  · rw [h1]
  · rw [h1]; simp [checkRateLimit]
  · rw [h2]; rfl
  · rw [h2]

/-- The rows produced by the enumeration loop: one row per pid whose
processing succeeded, in enumeration order. -/
theorem passFold_fst (env : ProcEnv) (snapshot : Int → Option CachedProc)
    (pids : List Int) :
    ∀ acc, (passFold env snapshot pids acc).1 =
      acc.1 ++ pids.filterMap
        (fun pid => (processOnePID env snapshot pid).map Prod.fst) := by
  induction pids with
  | nil => intro acc; simp [passFold]
  | cons q t ih =>
    intro acc
    show (passFold env snapshot t (passStep env snapshot acc q)).1 = _
    rw [ih]
    cases hq : processOnePID env snapshot q with
    | none => simp [passStep, hq]
    | some x =>
      obtain ⟨i, c, b⟩ := x
      simp [passStep, hq]

/-- A pid whose processing created a new record ends up bound to that
record in the staged `newEntries` delta. -/
theorem passFold_snd_new (env : ProcEnv) (snapshot : Int → Option CachedProc)
    (p : Int) (info : ProcessInfo) (cp : CachedProc)
    (hp : processOnePID env snapshot p = some (info, cp, true)) :
    ∀ (pids : List Int) (acc : List ProcessInfo × (Int → Option CachedProc)),
      (p ∈ pids ∨ acc.2 p = some cp) →
      (passFold env snapshot pids acc).2 p = some cp := by
  intro pids
  induction pids with
  | nil =>
    intro acc h
    rcases h with h | h
    · exact absurd h (List.not_mem_nil p)
    · simpa [passFold] using h
  | cons q t ih =>
    intro acc h
    show (passFold env snapshot t (passStep env snapshot acc q)).2 p = some cp
    apply ih
    rcases h with h | h
    · rcases List.mem_cons.1 h with rfl | hmem
      · right
        simp [passStep, hp]
      · left
        exact hmem
    · right
      cases hq : processOnePID env snapshot q with
      | none => simpa [passStep, hq] using h
      | some x =>
        obtain ⟨i, c, b⟩ := x
        cases b with
        | false => simpa [passStep, hq] using h
        | true =>
          by_cases hpq : p = q
          · subst hpq
            rw [hp] at hq
            obtain ⟨rfl, rfl⟩ : info = i ∧ cp = c := by
              injection hq with h'
              exact ⟨congrArg (fun z => z.1) h', congrArg (fun z => z.2.1) h'⟩
            simp [passStep, hp]
          · simpa [passStep, hq, hpq] using h

/-- A pid whose processing did not create a new record leaves the staged
`newEntries` delta unchanged at that pid. -/
theorem passFold_snd_not_new (env : ProcEnv)
    (snapshot : Int → Option CachedProc) (p : Int)
    (hp : ∀ info cp, processOnePID env snapshot p ≠ some (info, cp, true)) :
    ∀ (pids : List Int) (acc : List ProcessInfo × (Int → Option CachedProc)),
      (passFold env snapshot pids acc).2 p = acc.2 p := by
  intro pids
  induction pids with
  | nil => intro acc; rfl
  | cons q t ih =>
    intro acc
    show (passFold env snapshot t (passStep env snapshot acc q)).2 p = acc.2 p
    rw [ih]
    cases hq : processOnePID env snapshot q with
    | none => simp [passStep, hq]
    | some x =>
      obtain ⟨i, c, b⟩ := x
      cases b with
      | false => simp [passStep, hq]
      | true =>
        by_cases hpq : p = q
        · subst hpq
          exact absurd hq (hp i c)
        · simp [passStep, hq, hpq]

/-- Looking up an observed pid in the cache a pass returns: the staged new
entry if one exists, otherwise the pre-pass record. -/
theorem getProcessesPass_lookup_mem (env : ProcEnv) (pids : List Int)
    (cache : Int → Option CachedProc) (p : Int) (hp : p ∈ pids) :
    (getProcessesPass env pids cache).2 p =
      match (passFold env cache pids ([], fun _ => none)).2 p with
      | some cp => some cp
      | none => cache p := by
  simp only [getProcessesPass]
  rw [if_pos hp]

/-- The rows a pass returns, as a `filterMap` over the enumerated pids. -/
theorem getProcessesPass_fst (env : ProcEnv) (pids : List Int)
    (cache : Int → Option CachedProc) :
    (getProcessesPass env pids cache).1 =
      pids.filterMap (fun pid => (processOnePID env cache pid).map Prod.fst) := by
  simp only [getProcessesPass]
  rw [passFold_fst]
  simp

/-- **C5.** Across two consecutive tracker passes: all records surviving a
pass belong to pids enumerated in that pass (so a record whose pid was not
observed is deleted by the end of that pass); a pid first observed in pass
one gets a record carrying that pass's resolution and stamp; the same
record — same stamp, same name and owner, untouched by pass two's
(possibly different) resolver — serves the pid in pass two, and pass two's
output row for the pid carries the pass-one name and owner. -/
theorem processTracker_spec (env₁ env₂ : ProcEnv) (pids₁ pids₂ : List Int)
    (cache₀ : Int → Option CachedProc) (p : Int) (n u : String) (r₁ r₂ : Nat)
    (hc0 : cache₀ p = none)
    (hres : env₁.resolve p = some (n, u))
    (hrss₁ : env₁.rss p = some r₁)
    (hp₁ : p ∈ pids₁) (hp₂ : p ∈ pids₂)
    (hrss₂ : env₂.rss p = some r₂) :
    (∀ q cp', (getProcessesPass env₁ pids₁ cache₀).2 q = some cp' → q ∈ pids₁) ∧
    (∀ q cp',
      (getProcessesPass env₂ pids₂ (getProcessesPass env₁ pids₁ cache₀).2).2 q =
        some cp' → q ∈ pids₂) ∧
    (getProcessesPass env₁ pids₁ cache₀).2 p = some ⟨n, u, env₁.stamp⟩ ∧
    (getProcessesPass env₂ pids₂ (getProcessesPass env₁ pids₁ cache₀).2).2 p =
      some ⟨n, u, env₁.stamp⟩ ∧
    (∃ info ∈ (getProcessesPass env₂ pids₂ (getProcessesPass env₁ pids₁ cache₀).2).1,
      info.pid = p ∧ info.name = n ∧ info.user = u) := by
  have hevict : ∀ (env : ProcEnv) (pids : List Int)
      (cache : Int → Option CachedProc) (q : Int) (cp' : CachedProc),
      (getProcessesPass env pids cache).2 q = some cp' → q ∈ pids := by
    intro env pids cache q cp' h
    by_cases hm : q ∈ pids
    · exact hm
    · simp [getProcessesPass, hm] at h
  have hone₁ : processOnePID env₁ cache₀ p =
      some (⟨p, n, env₁.cpu p, (r₁ : ℚ) / MBr,
        (if env₁.totalMem > 0 then (r₁ : ℚ) / (env₁.totalMem : ℚ) * 100 else 0), u⟩,
        ⟨n, u, env₁.stamp⟩, true) := by
    simp [processOnePID, hc0, hres, mkProcRow, hrss₁]
  have hfold₁ := passFold_snd_new env₁ cache₀ p _ _ hone₁ pids₁
    ([], fun _ => none) (Or.inl hp₁)
  have hc₁ : (getProcessesPass env₁ pids₁ cache₀).2 p = some ⟨n, u, env₁.stamp⟩ := by
    rw [getProcessesPass_lookup_mem env₁ pids₁ cache₀ p hp₁, hfold₁]
  have hone₂ : processOnePID env₂ (getProcessesPass env₁ pids₁ cache₀).2 p =
      some (⟨p, n, env₂.cpu p, (r₂ : ℚ) / MBr,
        (if env₂.totalMem > 0 then (r₂ : ℚ) / (env₂.totalMem : ℚ) * 100 else 0), u⟩,
        ⟨n, u, env₁.stamp⟩, false) := by
    simp [processOnePID, hc₁, mkProcRow, hrss₂]
  have hnot : ∀ info cp,
      processOnePID env₂ (getProcessesPass env₁ pids₁ cache₀).2 p ≠
        some (info, cp, true) := by
    intro info cp h
    rw [hone₂] at h
    simp at h
  have hfold₂ : (passFold env₂ (getProcessesPass env₁ pids₁ cache₀).2 pids₂
      ([], fun _ => none)).2 p = none :=
    passFold_snd_not_new env₂ (getProcessesPass env₁ pids₁ cache₀).2
      p hnot pids₂ ([], fun _ => none)
  have hc₂ : (getProcessesPass env₂ pids₂
      (getProcessesPass env₁ pids₁ cache₀).2).2 p = some ⟨n, u, env₁.stamp⟩ := by
    rw [getProcessesPass_lookup_mem env₂ pids₂ _ p hp₂, hfold₂]
    exact hc₁
  refine ⟨hevict env₁ pids₁ cache₀, hevict env₂ pids₂ _, hc₁, hc₂, ?_⟩
  refine ⟨⟨p, n, env₂.cpu p, (r₂ : ℚ) / MBr,
    (if env₂.totalMem > 0 then (r₂ : ℚ) / (env₂.totalMem : ℚ) * 100 else 0), u⟩,
    ?_, rfl, rfl, rfl⟩
  rw [getProcessesPass_fst]
  exact List.mem_filterMap.2 ⟨p, hp₂, by rw [hone₂]; rfl⟩

/-- Witness for C5: provider pids `{1,2,3}` then `{2,3}`; pid 1's record
does not survive the second pass, while pid 2 keeps its pass-one record
(stamp 1, name "two", owner "u2") even though the second pass's resolver
would answer differently, and pass two's row for pid 2 shows the pass-one
name and owner. -/
theorem processTracker_witness :
    ((getProcessesPass
        ⟨fun _ => some ("REDO", "zz"), fun _ => some 2097152, fun _ => 0, 0, 2⟩
        [2, 3]
        (getProcessesPass
          ⟨fun pid => if pid = 1 then some ("one", "u1")
            else if pid = 2 then some ("two", "u2") else some ("three", "u3"),
           fun _ => some 1048576, fun _ => 0, 0, 1⟩
          [1, 2, 3] (fun _ => none)).2).2 2 = some ⟨"two", "u2", 1⟩) ∧
    ((getProcessesPass
        ⟨fun _ => some ("REDO", "zz"), fun _ => some 2097152, fun _ => 0, 0, 2⟩
        [2, 3]
        (getProcessesPass
          ⟨fun pid => if pid = 1 then some ("one", "u1")
            else if pid = 2 then some ("two", "u2") else some ("three", "u3"),
           fun _ => some 1048576, fun _ => 0, 0, 1⟩
          [1, 2, 3] (fun _ => none)).2).2 1 = none) := by
  have h := processTracker_spec
    ⟨fun pid => if pid = 1 then some ("one", "u1")
      else if pid = 2 then some ("two", "u2") else some ("three", "u3"),
     fun _ => some 1048576, fun _ => 0, 0, 1⟩
    ⟨fun _ => some ("REDO", "zz"), fun _ => some 2097152, fun _ => 0, 0, 2⟩
    [1, 2, 3] [2, 3] (fun _ => none) 2 "two" "u2" 1048576 2097152
    rfl rfl rfl (by decide) (by decide) rfl
  refine ⟨h.2.2.2.1, ?_⟩
  cases hcase : (getProcessesPass
      ⟨fun _ => some ("REDO", "zz"), fun _ => some 2097152, fun _ => 0, 0, 2⟩
      [2, 3]
      (getProcessesPass
        ⟨fun pid => if pid = 1 then some ("one", "u1")
          else if pid = 2 then some ("two", "u2") else some ("three", "u3"),
         fun _ => some 1048576, fun _ => 0, 0, 1⟩
        [1, 2, 3] (fun _ => none)).2).2 1 with
  | none => rfl
  | some cp' => exact absurd (h.2.1 1 cp' hcase) (by decide)

/-- Membership in a conditional singleton yields the element and the
guard. -/
theorem mem_ite_singleton {α : Type} {P : Prop} [Decidable P] {x y : α}
    (h : x ∈ (if P then [y] else ([] : List α))) : x = y ∧ P := by
  by_cases hP : P
  · rw [if_pos hP] at h
    exact ⟨List.mem_singleton.1 h, hP⟩
  · rw [if_neg hP] at h
    exact absurd h (List.not_mem_nil x)

/-- Category sums distribute over concatenation. -/
theorem sumSizes_append (a b : List StorageCategory) :
    sumSizes (a ++ b) = sumSizes a + sumSizes b := by
  simp [sumSizes]

/-- The reconciliation invariant on a literal breakdown, component-wise. -/
theorem reconciliationInvariant_mk (t u f p : ℚ) (cats : List StorageCategory) :
    reconciliationInvariant ⟨t, u, f, p, cats⟩ ↔
      (|sumSizes cats - (u + f)| ≤ 3 / 2 ∧ 0 ≤ t ∧ 0 ≤ u ∧ 0 ≤ f ∧ 0 ≤ p ∧
       ∀ cat ∈ cats, 0 ≤ cat.size) :=
  Iff.rfl

/-- The tier-one purgeable figure is clamped at zero. -/
theorem t1purgeable_nonneg (fB fO : Int) : 0 ≤ t1purgeable fB fO := by
  unfold t1purgeable
  split_ifs with h
  · exact le_refl 0
  · linarith

/-- One `df`-row step preserves nonnegativity of `(systemUsed, dataUsed)`. -/
theorem sysDataStep_nonneg (purgeable : ℚ) (acc : ℚ × ℚ) (d : DiskInfo)
    (h1 : 0 ≤ acc.1) (h2 : 0 ≤ acc.2) (hd : 0 ≤ d.usedGB) :
    0 ≤ (sysDataStep purgeable acc d).1 ∧ 0 ≤ (sysDataStep purgeable acc d).2 := by
  unfold sysDataStep
  split_ifs with hm hdm hneg
  · exact ⟨hd, h2⟩
  · exact ⟨h1, le_refl 0⟩
  · refine ⟨h1, ?_⟩
    show 0 ≤ d.usedGB - purgeable
    linarith
  · exact ⟨h1, h2⟩

/-- With nonnegative `df` rows, `(systemUsed, dataUsed)` is nonnegative. -/
theorem sysDataUsed_nonneg (purgeable : ℚ) (disks : List DiskInfo)
    (hd : ∀ d ∈ disks, 0 ≤ d.usedGB) :
    0 ≤ (sysDataUsed disks purgeable).1 ∧ 0 ≤ (sysDataUsed disks purgeable).2 := by
  have key : ∀ (l : List DiskInfo), (∀ d ∈ l, 0 ≤ d.usedGB) →
      ∀ acc : ℚ × ℚ, 0 ≤ acc.1 → 0 ≤ acc.2 →
      0 ≤ (l.foldl (sysDataStep purgeable) acc).1 ∧
      0 ≤ (l.foldl (sysDataStep purgeable) acc).2 := by
    intro l
    induction l with
    | nil => exact fun _ acc h1 h2 => ⟨h1, h2⟩
    | cons d t ih =>
      intro hl acc h1 h2
      have hstep := sysDataStep_nonneg purgeable acc d h1 h2
        (hl d (List.mem_cons_self d t))
      exact ih (fun d' h' => hl d' (List.mem_cons_of_mem d h')) _ hstep.1 hstep.2
  exact key disks hd (0, 0) le_rfl le_rfl

/-- One last-resort step preserves nonnegativity of all four figures. -/
theorem tier3Step_nonneg (acc : ℚ × ℚ × ℚ × ℚ) (d : DiskInfo)
    (h1 : 0 ≤ acc.1) (h2 : 0 ≤ acc.2.1) (h3 : 0 ≤ acc.2.2.1) (h4 : 0 ≤ acc.2.2.2)
    (hd : 0 ≤ d.usedGB ∧ 0 ≤ d.freeGB ∧ 0 ≤ d.totalGB) :
    0 ≤ (tier3Step acc d).1 ∧ 0 ≤ (tier3Step acc d).2.1 ∧
    0 ≤ (tier3Step acc d).2.2.1 ∧ 0 ≤ (tier3Step acc d).2.2.2 := by
  obtain ⟨hu, hf, ht⟩ := hd
  unfold tier3Step
  split_ifs with hm hdm
  · exact ⟨ht, hf, hu, h4⟩
  · exact ⟨h1, h2, h3, hu⟩
  · exact ⟨h1, h2, h3, h4⟩

/-- With nonnegative `df` rows, the last-resort figures are nonnegative. -/
theorem tier3Totals_nonneg (disks : List DiskInfo)
    (hd : ∀ d ∈ disks, 0 ≤ d.usedGB ∧ 0 ≤ d.freeGB ∧ 0 ≤ d.totalGB) :
    0 ≤ (tier3Totals disks).1 ∧ 0 ≤ (tier3Totals disks).2.1 ∧
    0 ≤ (tier3Totals disks).2.2.1 ∧ 0 ≤ (tier3Totals disks).2.2.2 := by
  have key : ∀ (l : List DiskInfo),
      (∀ d ∈ l, 0 ≤ d.usedGB ∧ 0 ≤ d.freeGB ∧ 0 ≤ d.totalGB) →
      ∀ acc : ℚ × ℚ × ℚ × ℚ, 0 ≤ acc.1 → 0 ≤ acc.2.1 → 0 ≤ acc.2.2.1 →
      0 ≤ acc.2.2.2 →
      0 ≤ (l.foldl tier3Step acc).1 ∧ 0 ≤ (l.foldl tier3Step acc).2.1 ∧
      0 ≤ (l.foldl tier3Step acc).2.2.1 ∧ 0 ≤ (l.foldl tier3Step acc).2.2.2 := by
    intro l
    induction l with
    | nil => exact fun _ acc h1 h2 h3 h4 => ⟨h1, h2, h3, h4⟩
    | cons d t ih =>
      intro hl acc h1 h2 h3 h4
      have hstep := tier3Step_nonneg acc d h1 h2 h3 h4
        (hl d (List.mem_cons_self d t))
      exact ih (fun d' h' => hl d' (List.mem_cons_of_mem d h')) _
        hstep.1 hstep.2.1 hstep.2.2.1 hstep.2.2.2
  exact key disks hd (0, 0, 0, 0) le_rfl le_rfl le_rfl le_rfl

/-- When the known categories do not exceed `used`, the shared
decomposition block sums to within 1 GB below `used`. -/
theorem standardCategories_sum_bounds (s dU used : ℚ) (hs : 0 ≤ s)
    (hdU : 0 ≤ dU) (hle : s + dU ≤ used) :
    used - 1 ≤ sumSizes (standardCategories s dU used) ∧
    sumSizes (standardCategories s dU used) ≤ used := by
  unfold standardCategories
  rw [sumSizes_append, sumSizes_append]
  split_ifs
  all_goals simp only [sumSizes, List.map_cons, List.map_nil, List.sum_cons,
    List.sum_nil]
  all_goals constructor <;> linarith

/-- Every category the shared decomposition block emits has positive
size (each is guarded by its own positivity test). -/
theorem standardCategories_nonneg (s dU used : ℚ) :
    ∀ cat ∈ standardCategories s dU used, 0 ≤ cat.size := by
  intro cat hcat
  unfold standardCategories at hcat
  rcases List.mem_append.1 hcat with h | h
  · rcases List.mem_append.1 h with h' | h'
    · obtain ⟨rfl, hP⟩ := mem_ite_singleton h'
      exact le_of_lt hP
    · obtain ⟨rfl, hP⟩ := mem_ite_singleton h'
      exact le_of_lt hP
  · obtain ⟨rfl, hP⟩ := mem_ite_singleton h
    show 0 ≤ used - (s + dU)
    linarith

/-- The reconciliation invariant on the first (Foundation) tier, given
source-consistent figures. -/
theorem breakdownTier1_invariant (disks : List DiskInfo) (fT fB fO : Int)
    (hd : ∀ d ∈ disks, 0 ≤ d.usedGB)
    (h1 : 0 < fT) (h2 : 0 < fO) (hfo : fO ≤ fT)
    (hkn : (sysDataUsed disks (t1purgeable fB fO)).1 +
      (sysDataUsed disks (t1purgeable fB fO)).2 ≤ ((fT - fO : Int) : ℚ) / toGB) :
    reconciliationInvariant (breakdownTier1 disks fT fB fO) := by
  obtain ⟨hs, hdU⟩ := sysDataUsed_nonneg (t1purgeable fB fO) disks hd
  have hpurg := t1purgeable_nonneg fB fO
  have hsub : ((fT - fO : Int) : ℚ) / toGB = (fT : ℚ) / toGB - (fO : ℚ) / toGB := by
    push_cast
    rw [sub_div]
  have hfT : (0 : ℚ) ≤ (fT : ℚ) / toGB :=
    div_nonneg (by exact_mod_cast h1.le) (by norm_num [toGB])
  have hfO : (0 : ℚ) ≤ (fO : ℚ) / toGB :=
    div_nonneg (by exact_mod_cast h2.le) (by norm_num [toGB])
  have hkn' : (sysDataUsed disks (t1purgeable fB fO)).1 +
      (sysDataUsed disks (t1purgeable fB fO)).2 ≤
      (fT : ℚ) / toGB - (fO : ℚ) / toGB := by
    rw [← hsub]
    exact hkn
  have hused : (0 : ℚ) ≤ (fT : ℚ) / toGB - (fO : ℚ) / toGB := by
    have : (0 : ℚ) ≤ ((fT - fO : Int) : ℚ) / toGB := by
      apply div_nonneg _ (by norm_num [toGB])
      have h0 : (0 : Int) ≤ fT - fO := by omega
      exact_mod_cast h0
    rw [hsub] at this
    exact this
  have hb : breakdownTier1 disks fT fB fO =
      ⟨(fT : ℚ) / toGB, (fT : ℚ) / toGB - (fO : ℚ) / toGB, (fO : ℚ) / toGB,
       t1purgeable fB fO,
       standardCategories (sysDataUsed disks (t1purgeable fB fO)).1
           (sysDataUsed disks (t1purgeable fB fO)).2
           ((fT : ℚ) / toGB - (fO : ℚ) / toGB) ++
         [⟨"Free", (fO : ℚ) / toGB, "free"⟩]⟩ := rfl
  obtain ⟨hlo, hhi⟩ := standardCategories_sum_bounds _ _ _ hs hdU hkn'
  rw [hb, reconciliationInvariant_mk]
  refine ⟨?_, hfT, hused, hfO, hpurg, ?_⟩
  · rw [sumSizes_append]
    have hone : sumSizes [(⟨"Free", (fO : ℚ) / toGB, "free"⟩ : StorageCategory)] =
        (fO : ℚ) / toGB := by
      simp [sumSizes]
    rw [hone, abs_le]
    constructor <;> linarith
  · intro cat hcat
    rcases List.mem_append.1 hcat with h | h
    · exact standardCategories_nonneg _ _ _ cat h
    · rw [List.mem_singleton.1 h]
      exact hfO

/-- The reconciliation invariant on the second (`diskutil`) tier, given
source-consistent figures. -/
theorem breakdownTier2_invariant (disks : List DiskInfo) (c : ApfsContainerInfo)
    (hd : ∀ d ∈ disks, 0 ≤ d.usedGB)
    (h1 : 0 < c.totalBytes) (hfr : 0 ≤ c.freeBytes) (hpu : 0 ≤ c.purgeableBytes)
    (hcap : c.freeBytes + c.purgeableBytes ≤ c.totalBytes)
    (hkn : (sysDataUsed disks ((c.purgeableBytes : ℚ) / toGB)).1 +
      (sysDataUsed disks ((c.purgeableBytes : ℚ) / toGB)).2 ≤
      ((c.totalBytes - c.freeBytes - c.purgeableBytes : Int) : ℚ) / toGB) :
    reconciliationInvariant (breakdownTier2 disks c) := by
  obtain ⟨hs, hdU⟩ := sysDataUsed_nonneg ((c.purgeableBytes : ℚ) / toGB) disks hd
  have hsub : ((c.totalBytes - c.freeBytes - c.purgeableBytes : Int) : ℚ) / toGB =
      (c.totalBytes : ℚ) / toGB - ((c.freeBytes : ℚ) / toGB +
        (c.purgeableBytes : ℚ) / toGB) := by
    push_cast
    ring
  have htQ : (0 : ℚ) ≤ (c.totalBytes : ℚ) / toGB :=
    div_nonneg (by exact_mod_cast h1.le) (by norm_num [toGB])
  have hfQ : (0 : ℚ) ≤ (c.freeBytes : ℚ) / toGB :=
    div_nonneg (by exact_mod_cast hfr) (by norm_num [toGB])
  have hpQ : (0 : ℚ) ≤ (c.purgeableBytes : ℚ) / toGB :=
    div_nonneg (by exact_mod_cast hpu) (by norm_num [toGB])
  have hkn' : (sysDataUsed disks ((c.purgeableBytes : ℚ) / toGB)).1 +
      (sysDataUsed disks ((c.purgeableBytes : ℚ) / toGB)).2 ≤
      (c.totalBytes : ℚ) / toGB - ((c.freeBytes : ℚ) / toGB +
        (c.purgeableBytes : ℚ) / toGB) := by
    rw [← hsub]
    exact hkn
  have hused : (0 : ℚ) ≤ (c.totalBytes : ℚ) / toGB -
      ((c.freeBytes : ℚ) / toGB + (c.purgeableBytes : ℚ) / toGB) := by
    have : (0 : ℚ) ≤
        ((c.totalBytes - c.freeBytes - c.purgeableBytes : Int) : ℚ) / toGB := by
      apply div_nonneg _ (by norm_num [toGB])
      have h0 : (0 : Int) ≤ c.totalBytes - c.freeBytes - c.purgeableBytes := by
        omega
      exact_mod_cast h0
    rw [hsub] at this
    exact this
  have hb : breakdownTier2 disks c =
      ⟨(c.totalBytes : ℚ) / toGB,
       (c.totalBytes : ℚ) / toGB -
         ((c.freeBytes : ℚ) / toGB + (c.purgeableBytes : ℚ) / toGB),
       (c.freeBytes : ℚ) / toGB + (c.purgeableBytes : ℚ) / toGB,
       (c.purgeableBytes : ℚ) / toGB,
       standardCategories (sysDataUsed disks ((c.purgeableBytes : ℚ) / toGB)).1
           (sysDataUsed disks ((c.purgeableBytes : ℚ) / toGB)).2
           ((c.totalBytes : ℚ) / toGB -
             ((c.freeBytes : ℚ) / toGB + (c.purgeableBytes : ℚ) / toGB)) ++
         (if (c.purgeableBytes : ℚ) / toGB > 1 / 2 then
           [⟨"Purgeable", (c.purgeableBytes : ℚ) / toGB, "snapshot"⟩] else []) ++
         [⟨"Free", (c.freeBytes : ℚ) / toGB, "free"⟩]⟩ := rfl
  obtain ⟨hlo, hhi⟩ := standardCategories_sum_bounds _ _ _ hs hdU hkn'
  rw [hb, reconciliationInvariant_mk]
  refine ⟨?_, htQ, hused, by linarith, hpQ, ?_⟩
  · rw [sumSizes_append, sumSizes_append]
    have hone : sumSizes [(⟨"Free", (c.freeBytes : ℚ) / toGB, "free"⟩ :
        StorageCategory)] = (c.freeBytes : ℚ) / toGB := by
      simp [sumSizes]
    rw [hone]
    split_ifs with hp
    · have hps : sumSizes [(⟨"Purgeable", (c.purgeableBytes : ℚ) / toGB,
          "snapshot"⟩ : StorageCategory)] = (c.purgeableBytes : ℚ) / toGB := by
        simp [sumSizes]
      rw [hps, abs_le]
      constructor <;> linarith
    · have hps : sumSizes ([] : List StorageCategory) = 0 := by
        simp [sumSizes]
      rw [hps, abs_le]
      constructor <;> linarith
  · intro cat hcat
    rcases List.mem_append.1 hcat with h | h
    · rcases List.mem_append.1 h with h' | h'
      · exact standardCategories_nonneg _ _ _ cat h'
      · obtain ⟨rfl, hP⟩ := mem_ite_singleton h'
        exact le_of_lt (lt_trans (by norm_num) hP)
    · rw [List.mem_singleton.1 h]
      exact hfQ

/-- The reconciliation invariant on the last-resort (`df`) tier, given
source-consistent figures. -/
theorem breakdownTier3_invariant (disks : List DiskInfo)
    (hd : ∀ d ∈ disks, 0 ≤ d.usedGB ∧ 0 ≤ d.freeGB ∧ 0 ≤ d.totalGB)
    (hfree : (tier3Totals disks).2.1 ≤ (tier3Totals disks).1)
    (hkn : (tier3Totals disks).2.2.1 + (tier3Totals disks).2.2.2 ≤
      (tier3Totals disks).1 - (tier3Totals disks).2.1) :
    reconciliationInvariant (breakdownTier3 disks) := by
  obtain ⟨ht, hf, hsu, hdu⟩ := tier3Totals_nonneg disks hd
  have hb : breakdownTier3 disks =
      ⟨(tier3Totals disks).1,
       (tier3Totals disks).1 - (tier3Totals disks).2.1,
       (tier3Totals disks).2.1, 0,
       standardCategories (tier3Totals disks).2.2.1 (tier3Totals disks).2.2.2
           ((tier3Totals disks).1 - (tier3Totals disks).2.1) ++
         [⟨"Free", (tier3Totals disks).2.1, "free"⟩]⟩ := rfl
  obtain ⟨hlo, hhi⟩ := standardCategories_sum_bounds _ _ _ hsu hdu hkn
  rw [hb, reconciliationInvariant_mk]
  refine ⟨?_, ht, by linarith, hf, le_rfl, ?_⟩
  · rw [sumSizes_append]
    have hone : sumSizes [(⟨"Free", (tier3Totals disks).2.1, "free"⟩ :
        StorageCategory)] = (tier3Totals disks).2.1 := by
      simp [sumSizes]
    rw [hone, abs_le]
    constructor <;> linarith
  · intro cat hcat
    rcases List.mem_append.1 hcat with h | h
    · exact standardCategories_nonneg _ _ _ cat h
    · rw [List.mem_singleton.1 h]
      exact hf

/-- **C6 counterexample.** The claim says no produced figure is negative
on a successful refresh.  On the first tier nothing constrains the
opportunistic free space to be at most the total: with Foundation
reporting total = 1 GB and opportunistically-free = 2 GB (and no `df`
rows), the produced `UsedGB` is −1 GB. -/
theorem storage_usedGB_counterexample :
    (updateBreakdown [] 1000000000 0 2000000000 none).usedGB = -1 := by
  norm_num [updateBreakdown, breakdownTier1, t1purgeable, sysDataUsed,
    sysDataStep, toGB, standardCategories]

/-- **C6 (amended).** On each of the three fallback source tiers, provided
the tier's sources are internally consistent — the chosen tier's free
figure does not exceed its total, its byte counts are nonnegative, and the
`df`-derived known categories do not exceed the tier's used figure — the
produced breakdown satisfies the reconciliation invariant: the category
sizes sum to `usedGB + freeGB` within a fixed 1.5 GB tolerance and no
produced figure is negative. -/
theorem storage_reconciliation_spec (disks : List DiskInfo)
    (fT fB fO : Int) (c : ApfsContainerInfo) (apfs : Option ApfsContainerInfo)
    (hd : ∀ d ∈ disks, 0 ≤ d.usedGB ∧ 0 ≤ d.freeGB ∧ 0 ≤ d.totalGB) :
    (0 < fT → 0 < fO → fO ≤ fT →
      (sysDataUsed disks (t1purgeable fB fO)).1 +
        (sysDataUsed disks (t1purgeable fB fO)).2 ≤ ((fT - fO : Int) : ℚ) / toGB →
      reconciliationInvariant (updateBreakdown disks fT fB fO apfs)) ∧
    (¬ (fT > 0 ∧ fO > 0) → 0 < c.totalBytes → 0 ≤ c.freeBytes →
      0 ≤ c.purgeableBytes → c.freeBytes + c.purgeableBytes ≤ c.totalBytes →
      (sysDataUsed disks ((c.purgeableBytes : ℚ) / toGB)).1 +
        (sysDataUsed disks ((c.purgeableBytes : ℚ) / toGB)).2 ≤
        ((c.totalBytes - c.freeBytes - c.purgeableBytes : Int) : ℚ) / toGB →
      reconciliationInvariant (updateBreakdown disks fT fB fO (some c))) ∧
    (¬ (fT > 0 ∧ fO > 0) →
      (tier3Totals disks).2.1 ≤ (tier3Totals disks).1 →
      (tier3Totals disks).2.2.1 + (tier3Totals disks).2.2.2 ≤
        (tier3Totals disks).1 - (tier3Totals disks).2.1 →
      reconciliationInvariant (updateBreakdown disks fT fB fO none)) := by
  have hdu : ∀ d ∈ disks, 0 ≤ d.usedGB := fun d h => (hd d h).1
  refine ⟨?_, ?_, ?_⟩
  · intro h1 h2 hfo hkn
    unfold updateBreakdown
    rw [if_pos ⟨h1, h2⟩]
    exact breakdownTier1_invariant disks fT fB fO hdu h1 h2 hfo hkn
  · intro hno hc1 hc2 hc3 hc4 hkn
    unfold updateBreakdown
    rw [if_neg hno]
    show reconciliationInvariant
      (if c.totalBytes > 0 then breakdownTier2 disks c else breakdownTier3 disks)
    rw [if_pos hc1]
    exact breakdownTier2_invariant disks c hdu hc1 hc2 hc3 hc4 hkn
  · intro hno hfree hkn
    unfold updateBreakdown
    rw [if_neg hno]
    exact breakdownTier3_invariant disks hd hfree hkn

/-- Witness for the amended C6: a consistent two-volume system checked on
all three tiers (Foundation figures, `diskutil` figures, plain `df`). -/
theorem storage_reconciliation_witness :
    reconciliationInvariant (updateBreakdown
      [⟨"/dev/disk3s1", "/", 500, 10, 300, 2⟩,
       ⟨"/dev/disk3s5", "/System/Volumes/Data", 500, 180, 300, 38⟩]
      500000000000 290000000000 300000000000 none) ∧
    reconciliationInvariant (updateBreakdown
      [⟨"/dev/disk3s1", "/", 500, 10, 300, 2⟩,
       ⟨"/dev/disk3s5", "/System/Volumes/Data", 500, 180, 300, 38⟩]
      0 0 0 (some ⟨500000000000, 0, 300000000000, 10000000000⟩)) ∧
    reconciliationInvariant (updateBreakdown
      [⟨"/dev/disk3s1", "/", 500, 10, 300, 2⟩,
       ⟨"/dev/disk3s5", "/System/Volumes/Data", 500, 180, 300, 38⟩]
      0 0 0 none) := by
  have hd0 : ∀ d ∈ [(⟨"/dev/disk3s1", "/", 500, 10, 300, 2⟩ : DiskInfo),
      ⟨"/dev/disk3s5", "/System/Volumes/Data", 500, 180, 300, 38⟩],
      0 ≤ d.usedGB ∧ 0 ≤ d.freeGB ∧ 0 ≤ d.totalGB := by decide
  have hne : ("/System/Volumes/Data" : String) ≠ "/" := by decide
  refine ⟨?_, ?_, ?_⟩
  · exact (storage_reconciliation_spec _ 500000000000 290000000000 300000000000
      ⟨1, 1, 1, 1⟩ none hd0).1 (by decide) (by decide) (by decide)
      (by norm_num [sysDataUsed, sysDataStep, t1purgeable, toGB, hne])
  · exact (storage_reconciliation_spec _ 0 0 0
      ⟨500000000000, 0, 300000000000, 10000000000⟩ none hd0).2.1
      (by decide) (by decide) (by decide) (by decide) (by decide)
      (by norm_num [sysDataUsed, sysDataStep, toGB, hne])
  · exact (storage_reconciliation_spec _ 0 0 0 ⟨1, 1, 1, 1⟩ none hd0).2.2
      (by decide)
      (by norm_num [tier3Totals, tier3Step, hne])
      (by norm_num [tier3Totals, tier3Step, hne])

end Talaria
